import Mathlib

/-!
Verification of `src/python/example/pipeline.py`.

The file embeds the program shallowly:
* `get_thread_id` (pipeline.py lines 39-43) together with the library
  operations it calls (`uuid5`, `uuid4`, `str(UUID)` formatting, and the
  SHA-1 hash underlying `uuid5`, all made explicit over `Nat`);
* the registered event observers (`on_user_state_changed`,
  `on_agent_state_changed`, `on_metrics_collected`);
* the startup sequencing of `entrypoint` as a trace of abstract actions;
* the `Assistant.on_enter` lifecycle hook as the list of session commands
  it issues.
-/

namespace Pipeline

/-! ### Bytes and words -/

/-- Big-endian encoding of `n` into `k` bytes, as in Python
`int.to_bytes(k, "big")` (low bytes of `n` beyond `k` bytes are dropped,
matching the in-range use in the source). -/
def natToBytesBE : Nat → Nat → List Nat
  | 0, _ => []
  | k + 1, n => natToBytesBE k (n / 256) ++ [n % 256]

/-- Big-endian decoding of a byte list, as in Python
`int.from_bytes(b, "big")`. -/
def bytesToNatBE (l : List Nat) : Nat :=
  l.foldl (fun acc b => acc * 256 + b) 0

/-- `2 ^ 32`, the word modulus of SHA-1 arithmetic. -/
def w32 : Nat := 4294967296

/-- Left rotation of a 32-bit word by `k` bits. -/
def rotl (k n : Nat) : Nat :=
  ((n <<< k) ||| (n >>> (32 - k))) % w32

/-- Bitwise complement of a 32-bit word. -/
def not32 (n : Nat) : Nat := n ^^^ 4294967295

/-! ### UTF-8 encoding

`uuid5` encodes its `name` argument with `str.encode("utf-8")`; this is
the standard UTF-8 encoding of the Unicode scalar values of the string. -/

/-- UTF-8 encoding of a single Unicode scalar value. -/
def utf8EncodeChar (c : Char) : List Nat :=
  let n := c.toNat
  if n < 128 then [n]
  else if n < 2048 then
    [192 ||| (n >>> 6), 128 ||| (n &&& 63)]
  else if n < 65536 then
    [224 ||| (n >>> 12), 128 ||| ((n >>> 6) &&& 63), 128 ||| (n &&& 63)]
  else
    [240 ||| (n >>> 18), 128 ||| ((n >>> 12) &&& 63),
     128 ||| ((n >>> 6) &&& 63), 128 ||| (n &&& 63)]

/-- UTF-8 encoding of a string, byte list. -/
def utf8Encode (s : String) : List Nat :=
  (s.data.map utf8EncodeChar).flatten

/-! ### SHA-1

`uuid.uuid5` computes `sha1(namespace.bytes + name).digest()`.  The hash
is embedded here in full, over `Nat` with explicit `% 2 ^ 32` reductions.
Recursions are structural (fuel-based where needed) so that the kernel
can evaluate the function on concrete inputs. -/

/-- SHA-1 padding: append `0x80`, zero bytes up to 56 mod 64, then the
original bit length as 8 big-endian bytes. -/
def sha1Pad (msg : List Nat) : List Nat :=
  let len := msg.length
  let zeros := (64 + 56 - ((len + 1) % 64)) % 64
  msg ++ [128] ++ List.replicate zeros 0 ++ natToBytesBE 8 (len * 8)

/-- Split a byte list into chunks of 64 bytes (fuel-based recursion). -/
def toChunksF : Nat → List Nat → List (List Nat)
  | 0, _ => []
  | _ + 1, [] => []
  | fuel + 1, l => l.take 64 :: toChunksF fuel (l.drop 64)

/-- Assemble bytes into big-endian 32-bit words (fuel-based recursion). -/
def bytesToWordsF : Nat → List Nat → List Nat
  | 0, _ => []
  | _ + 1, [] => []
  | fuel + 1, l => bytesToNatBE (l.take 4) :: bytesToWordsF fuel (l.drop 4)

/-- Message-schedule extension: starting from the 16 chunk words
(most recent first in `rev`), produce 80 words; each new word is
`rotl1 (w[i-3] xor w[i-8] xor w[i-14] xor w[i-16])`. -/
def extendLoop : Nat → List Nat → List Nat
  | 0, rev => rev.reverse
  | fuel + 1, rev =>
    let nw := rotl 1 ((rev.getD 2 0) ^^^ (rev.getD 7 0) ^^^
                      (rev.getD 13 0) ^^^ (rev.getD 15 0))
    extendLoop fuel (nw :: rev)

/-- The 80-word message schedule of one chunk. -/
def schedule (ws : List Nat) : List Nat :=
  extendLoop 64 ws.reverse

/-- Round function and round constant of SHA-1 round `i`. -/
def sha1FK (i b c d : Nat) : Nat × Nat :=
  if i < 20 then (((b &&& c) ||| (not32 b &&& d)) % w32, 1518500249)
  else if i < 40 then ((b ^^^ c ^^^ d) % w32, 1859775393)
  else if i < 60 then (((b &&& c) ||| (b &&& d) ||| (c &&& d)) % w32, 2400959708)
  else ((b ^^^ c ^^^ d) % w32, 3395469782)

/-- One SHA-1 round: state `(a, b, c, d, e)` updated with word `w` of
round `i`. -/
def roundStep (st : Nat × Nat × Nat × Nat × Nat) (iw : Nat × Nat) :
    Nat × Nat × Nat × Nat × Nat :=
  let (a, b, c, d, e) := st
  let (i, w) := iw
  let (f, k) := sha1FK i b c d
  let temp := (rotl 5 a + f + e + k + w) % w32
  (temp, a, rotl 30 b, c, d)

/-- Process one 64-byte chunk, updating the five hash words. -/
def processChunk (h : Nat × Nat × Nat × Nat × Nat) (chunk : List Nat) :
    Nat × Nat × Nat × Nat × Nat :=
  let ws := schedule (bytesToWordsF 16 chunk)
  let (a, b, c, d, e) := ws.enum.foldl roundStep h
  ((h.1 + a) % w32, (h.2.1 + b) % w32, (h.2.2.1 + c) % w32,
   (h.2.2.2.1 + d) % w32, (h.2.2.2.2 + e) % w32)

/-- Big-endian bytes of one 32-bit word. -/
def wordToBytes (w : Nat) : List Nat :=
  [w / 16777216 % 256, w / 65536 % 256, w / 256 % 256, w % 256]

/-- The 20-byte digest of a final SHA-1 state. -/
def digestOfState (st : Nat × Nat × Nat × Nat × Nat) : List Nat :=
  wordToBytes st.1 ++ wordToBytes st.2.1 ++ wordToBytes st.2.2.1 ++
    wordToBytes st.2.2.2.1 ++ wordToBytes st.2.2.2.2

/-- The SHA-1 initial state. -/
def sha1Init : Nat × Nat × Nat × Nat × Nat :=
  (1732584193, 4023233417, 2562383102, 271733878, 3285377520)

/-- SHA-1 of a byte list: 20-byte digest. -/
def sha1 (msg : List Nat) : List Nat :=
  let padded := sha1Pad msg
  let chunks := toChunksF (padded.length + 1) padded
  digestOfState (chunks.foldl processChunk sha1Init)

/-! ### UUID construction and formatting

`uuid.UUID(bytes=..., version=v)` interprets 16 bytes as a big-endian
128-bit integer, forces the RFC 4122 variant bits (bits 62-63 become
`10`) and the version bits (bits 76-79 become `v`), and `str(...)`
formats the integer as 32 lowercase hexadecimal digits in hyphenated
8-4-4-4-12 groups. -/

/-- `clearMask n mask` models Python `n & ~mask` on the UUID integers
of this file: the complement is taken within 128 bits, which agrees with
the unbounded Python complement because every integer it is applied to
is below `2 ^ 128` (a UUID int is built from 16 bytes). -/
def clearMask (n mask : Nat) : Nat := n &&& (mask ^^^ (2 ^ 128 - 1))

/-- The variant/version bit fiddling of `uuid.UUID.__init__` when a
`version` argument is given:
`int &= ~(0xc000 << 48); int |= 0x8000 << 48;`
`int &= ~(0xf000 << 64); int |= version << 76`. -/
def setVersionVariant (version n : Nat) : Nat :=
  let n1 := clearMask n (49152 <<< 48)
  let n2 := n1 ||| (32768 <<< 48)
  let n3 := clearMask n2 (61440 <<< 64)
  n3 ||| (version <<< 76)

/-- Lowercase hexadecimal digit character of `n < 16`
(as in Python `"%x"` formatting). -/
def hexChar (n : Nat) : Char :=
  if n < 10 then Char.ofNat (48 + n) else Char.ofNat (87 + n)

/-- The `k` lowest hexadecimal digits of `n`, most significant first,
zero-padded: `toHexDigits n 32` is Python `"%032x" % n` for
`n < 2 ^ 128`. -/
def toHexDigits : Nat → Nat → List Char
  | _, 0 => []
  | n, k + 1 => toHexDigits (n / 16) k ++ [hexChar (n % 16)]

/-- Hyphenation of `str(uuid.UUID(...))`: groups `[:8]`, `[8:12]`,
`[12:16]`, `[16:20]`, `[20:32]` of the 32 hex digits. -/
def insertHyphens (d : List Char) : List Char :=
  d.take 8 ++ ('-' :: (d.drop 8).take 4) ++ ('-' :: (d.drop 12).take 4) ++
    ('-' :: (d.drop 16).take 4) ++ ('-' :: (d.drop 20).take 12)

/-- `str(uuid.UUID(int=n))`: canonical textual form of a 128-bit UUID
integer. -/
def uuidToString (n : Nat) : String :=
  String.mk (insertHyphens (toHexDigits n 32))

/-- The namespace constant of `get_thread_id`:
`UUID("41010b5d-5447-4df5-baf2-97d69f2e9d06")` as a 128-bit integer. -/
def NAMESPACE : Nat := 0x41010b5d54474df5baf297d69f2e9d06

/-- The 16 bytes of the namespace UUID (`namespace.bytes`). -/
def namespaceBytes : List Nat := natToBytesBE 16 NAMESPACE

/-- `uuid.uuid5(namespace, name)` as a 128-bit integer:
SHA-1 of `namespace.bytes + name`, truncated to 16 bytes, with variant
and version-5 bits forced. -/
def uuid5 (nsBytes nameBytes : List Nat) : Nat :=
  let digest := sha1 (nsBytes ++ nameBytes)
  setVersionVariant 5 (bytesToNatBE (digest.take 16))

/-- `uuid.uuid4()` as a 128-bit integer, with the 16 random bytes
(`os.urandom(16)`) supplied explicitly as `random % 2 ^ 128`: variant
and version-4 bits are forced on the random value. -/
def uuid4 (random : Nat) : Nat :=
  setVersionVariant 4 (random % (2 ^ 128))

/-- `get_thread_id` (pipeline.py lines 39-43).  The nondeterminism of
the `None` branch (`uuid4`) is made explicit as the `random` argument;
the `some` branch does not consult it. -/
def get_thread_id (sid : Option String) (random : Nat) : String :=
  match sid with
  | some s => uuidToString (uuid5 namespaceBytes (utf8Encode s))
  | none => uuidToString (uuid4 random)

/-! ### Event observers (pipeline.py lines 191-193 and 210-230)

Each observer is a synchronous callback; its visible behaviour is the
list of diagnostic lines it prints for one event.  `on_metrics_collected`
additionally calls `usage_collector.collect(agent_metrics)`, which
accumulates the metric in the collector; the collector is modelled as
the list of metrics collected so far. -/

/-- The `user_state_changed` observer (lines 210-217): diagnostic lines
printed for one event with the given `new_state`. -/
def on_user_state_changed (new_state : String) : List String :=
  if new_state = "speaking" then ["User started speaking"]
  else if new_state = "listening" then ["User stopped speaking"]
  else if new_state = "away" then ["User is not present (e.g. disconnected)"]
  else []

/-- The `agent_state_changed` observer (lines 219-230): diagnostic lines
printed for one event with the given `new_state`. -/
def on_agent_state_changed (new_state : String) : List String :=
  if new_state = "initializing" then ["Agent is starting up"]
  else if new_state = "idle" then ["Agent is ready but not processing"]
  else if new_state = "listening" then ["Agent is listening for user input"]
  else if new_state = "thinking" then
    ["Agent is processing user input and generating a response"]
  else if new_state = "speaking" then ["Agent started speaking"]
  else []

/-- The state the observer callbacks can touch: the diagnostic output
stream and the usage collector owned by `entrypoint`.
`μ` is the external `AgentMetrics` payload type. -/
structure ObsState (μ : Type) where
  printed : List String
  collected : List μ
deriving DecidableEq

/-- The `metrics_collected` observer (lines 191-193):
`metrics.log_metrics(agent_metrics)` emits one diagnostic line (rendered
by the external `logMetricsLine`), and
`usage_collector.collect(agent_metrics)` records the metric in the
collector. -/
def on_metrics_collected (logMetricsLine : μ → String) (m : μ)
    (st : ObsState μ) : ObsState μ :=
  { printed := st.printed ++ [logMetricsLine m],
    collected := st.collected ++ [m] }

/-- The `user_state_changed` observer acting on the observable state:
it only prints. -/
def userStateHandler (ev : String) (st : ObsState μ) : ObsState μ :=
  { st with printed := st.printed ++ on_user_state_changed ev }

/-- The `agent_state_changed` observer acting on the observable state:
it only prints. -/
def agentStateHandler (ev : String) (st : ObsState μ) : ObsState μ :=
  { st with printed := st.printed ++ on_agent_state_changed ev }

/-! ### Startup sequencing (pipeline.py lines 179-240) -/

/-- The externally observable steps of `entrypoint`, in program order. -/
inductive Action where
  | logInfo (msg : String)
  | connect (autoSubscribe : String)
  | waitForParticipant
  | deriveThreadId (sid : Option String) (result : String)
  | constructUsageCollector
  | constructRemoteGraph (name : String) (url : Option String)
  | constructSession (graphName : String) (threadId : String)
  | registerHandler (event : String)
  | startSession
deriving DecidableEq

/-- `entrypoint` (lines 179-240) as the trace of steps it performs, in
source order, parameterized by the externally supplied values: the room
name, the first participant (its `sid` and `identity`), the
`REMOTE_GRAPH_URL` environment value, and the randomness consumed if
`sid` is `None`. -/
def entrypoint (roomName : String) (sid : Option String)
    (identity : String) (remoteGraphUrl : Option String) (random : Nat) :
    List Action :=
  let thread_id := get_thread_id sid random
  [Action.logInfo ("connecting to room " ++ roomName),
   Action.connect "AUDIO_ONLY",
   Action.waitForParticipant,
   Action.deriveThreadId sid thread_id,
   Action.logInfo ("starting voice assistant for participant " ++ identity),
   Action.constructUsageCollector,
   Action.constructRemoteGraph "stepwork_assistant" remoteGraphUrl,
   Action.constructSession "stepwork_assistant" thread_id,
   Action.registerHandler "metrics_collected",
   Action.registerHandler "user_state_changed",
   Action.registerHandler "agent_state_changed",
   Action.startSession]

/-- Constructor discriminators used to count occurrences of a step kind
in a trace. -/
def isConnect : Action → Bool
  | Action.connect _ => true
  | _ => false

def isWaitForParticipant : Action → Bool
  | Action.waitForParticipant => true
  | _ => false

def isDeriveThreadId : Action → Bool
  | Action.deriveThreadId _ _ => true
  | _ => false

def isConstructRemoteGraph : Action → Bool
  | Action.constructRemoteGraph _ _ => true
  | _ => false

def isConstructSession : Action → Bool
  | Action.constructSession _ _ => true
  | _ => false

def isRegisterHandler : Action → Bool
  | Action.registerHandler _ => true
  | _ => false

def isStartSession : Action → Bool
  | Action.startSession => true
  | _ => false

/-! ### The on-enter lifecycle hook (pipeline.py lines 168-172) -/

/-- A command issued on the session object. -/
inductive SessionCommand where
  | generateReply (instructions : String) (allow_interruptions : Bool)
deriving DecidableEq

/-- `Assistant.on_enter` (lines 168-172) as the list of session commands
it issues. -/
def on_enter : List SessionCommand :=
  [SessionCommand.generateReply "Hey, how can I help you today?" true]

/-- Whether a session command is a reply generation that allows
interruptions. -/
def allowsInterruptions : SessionCommand → Bool
  | SessionCommand.generateReply _ ai => ai

/-! ### Well-formedness of UUID strings -/

/-- Hexadecimal digit as produced by Python lowercase `"%x"`
formatting. -/
def isHexDigit (c : Char) : Bool :=
  (48 ≤ c.toNat && c.toNat ≤ 57) || (97 ≤ c.toNat && c.toNat ≤ 102)

/-- Canonical textual UUID form: 36 characters, five hyphen-separated
groups of hexadecimal digits of lengths 8, 4, 4, 4, 12. -/
def CanonicalUUID (s : String) : Prop :=
  s.length = 36 ∧
  ∃ g1 g2 g3 g4 g5 : List Char,
    s.data = g1 ++ ('-' :: g2) ++ ('-' :: g3) ++ ('-' :: g4) ++ ('-' :: g5) ∧
    g1.length = 8 ∧ g2.length = 4 ∧ g3.length = 4 ∧ g4.length = 4 ∧
    g5.length = 12 ∧
    (g1 ++ g2 ++ g3 ++ g4 ++ g5).all isHexDigit = true

/-- The combined variant/version bit positions forced by
`setVersionVariant`: bits 62-63 and bits 76-79.  `clearVV n` is `n` with
those bits cleared — the 122 bits of a UUID integer that survive the
variant/version forcing. -/
def clearVV (n : Nat) : Nat :=
  clearMask n ((49152 <<< 48) ||| (61440 <<< 64))

/-! ## Supporting lemmas -/

theorem testBit_49152 (k : Nat) :
    (49152 : Nat).testBit k = decide (14 ≤ k ∧ k ≤ 15) := by
  by_cases hk : k < 16
  · revert hk
    revert k
    decide
  · have h1 : (49152 : Nat) < 2 ^ k :=
      lt_of_lt_of_le (show (49152 : Nat) < 2 ^ 16 by norm_num)
        (Nat.pow_le_pow_right (by norm_num) (by omega))
    have h2 : ¬(14 ≤ k ∧ k ≤ 15) := by omega
    simp [Nat.testBit_lt_two_pow h1, h2]

theorem testBit_32768 (k : Nat) :
    (32768 : Nat).testBit k = decide (k = 15) := by
  by_cases hk : k < 16
  · revert hk
    revert k
    decide
  · have h1 : (32768 : Nat) < 2 ^ k :=
      lt_of_lt_of_le (show (32768 : Nat) < 2 ^ 16 by norm_num)
        (Nat.pow_le_pow_right (by norm_num) (by omega))
    have h2 : ¬(k = 15) := by omega
    simp [Nat.testBit_lt_two_pow h1, h2]

theorem testBit_61440 (k : Nat) :
    (61440 : Nat).testBit k = decide (12 ≤ k ∧ k ≤ 15) := by
  by_cases hk : k < 16
  · revert hk
    revert k
    decide
  · have h1 : (61440 : Nat) < 2 ^ k :=
      lt_of_lt_of_le (show (61440 : Nat) < 2 ^ 16 by norm_num)
        (Nat.pow_le_pow_right (by norm_num) (by omega))
    have h2 : ¬(12 ≤ k ∧ k ≤ 15) := by omega
    simp [Nat.testBit_lt_two_pow h1, h2]

theorem testBit_variantMask (i : Nat) :
    ((49152 : Nat) <<< 48).testBit i = decide (62 ≤ i ∧ i ≤ 63) := by
  simp only [Nat.testBit_shiftLeft, testBit_49152, ← Bool.decide_and,
    decide_eq_decide]
  omega

theorem testBit_variantSet (i : Nat) :
    ((32768 : Nat) <<< 48).testBit i = decide (i = 63) := by
  simp only [Nat.testBit_shiftLeft, testBit_32768, ← Bool.decide_and,
    decide_eq_decide]
  omega

theorem testBit_versionMask (i : Nat) :
    ((61440 : Nat) <<< 64).testBit i = decide (76 ≤ i ∧ i ≤ 79) := by
  simp only [Nat.testBit_shiftLeft, testBit_61440, ← Bool.decide_and,
    decide_eq_decide]
  omega

theorem testBit_shiftLeft76_high {v i : Nat} (hv : v < 16) (hi : 80 ≤ i) :
    (v <<< 76).testBit i = false := by
  rw [Nat.testBit_shiftLeft]
  have : v.testBit (i - 76) = false :=
    Nat.testBit_lt_two_pow
      (lt_of_lt_of_le (lt_of_lt_of_le hv (show (16:Nat) ≤ 2 ^ 4 by norm_num))
        (Nat.pow_le_pow_right (by norm_num) (by omega)))
  simp [this]

/-- Bit-level characterization of `clearMask` for masks below
`2 ^ 128`. -/
theorem clearMask_testBit (n m i : Nat) (hm : m < 2 ^ 128) :
    (clearMask n m).testBit i =
      (n.testBit i && !m.testBit i && decide (i < 128)) := by
  unfold clearMask
  simp only [Nat.testBit_and, Nat.testBit_xor, Nat.testBit_two_pow_sub_one]
  by_cases hi : i < 128
  · simp [hi]
  · have hmb : m.testBit i = false :=
      Nat.testBit_lt_two_pow
        (lt_of_lt_of_le hm
          (Nat.pow_le_pow_right (by norm_num) (by omega)))
    simp [hi, hmb]

/-- Bit-level characterization of the variant/version forcing: bits
62-63 become `10`, bits 76-79 become `v`, all other bits below 128 are
taken from the input. -/
theorem setVersionVariant_testBit (v x : Nat) (hv : v < 16) (i : Nat) :
    (setVersionVariant v x).testBit i =
      if 62 ≤ i ∧ i ≤ 63 then decide (i = 63)
      else if 76 ≤ i ∧ i ≤ 79 then v.testBit (i - 76)
      else (x.testBit i && decide (i < 128)) := by
  unfold setVersionVariant
  simp only [Nat.testBit_or,
    clearMask_testBit _ (49152 <<< 48) i (by decide),
    clearMask_testBit _ (61440 <<< 64) i (by decide),
    testBit_variantMask, testBit_variantSet, testBit_versionMask]
  by_cases h1 : 62 ≤ i ∧ i ≤ 63
  · have h2 : ¬(76 ≤ i ∧ i ≤ 79) := by omega
    have h3 : (v <<< 76).testBit i = false := by
      rw [Nat.testBit_shiftLeft]
      have : ¬(i ≥ 76) := by omega
      simp [this]
    have h4 : i < 128 := by omega
    rw [if_pos h1]
    simp [h1, h2, h3, h4]
  · by_cases h2 : 76 ≤ i ∧ i ≤ 79
    · have h3 : ¬(i = 63) := by omega
      have h4 : i < 128 := by omega
      rw [if_neg h1, if_pos h2]
      rw [Nat.testBit_shiftLeft]
      have h5 : i ≥ 76 := h2.1
      simp [h1, h2, h3, h4, h5]
    · rw [if_neg h1, if_neg h2]
      have h3 : ¬(i = 63) := by omega
      by_cases h4 : 76 ≤ i
      · have h5 : (v <<< 76).testBit i = false :=
          testBit_shiftLeft76_high hv (by omega)
        simp [h1, h2, h3, h5]
      · have h5 : (v <<< 76).testBit i = false := by
          rw [Nat.testBit_shiftLeft]
          simp [h4]
        simp [h1, h2, h3, h5]

/-- Bit-level characterization of `clearVV`. -/
theorem clearVV_testBit (x i : Nat) :
    (clearVV x).testBit i =
      (x.testBit i && !decide ((62 ≤ i ∧ i ≤ 63) ∨ (76 ≤ i ∧ i ≤ 79)) &&
        decide (i < 128)) := by
  unfold clearVV
  rw [clearMask_testBit _ _ i (by decide)]
  simp only [Nat.testBit_or, testBit_variantMask, testBit_versionMask,
    ← Bool.decide_or]

theorem setVersionVariant_lt {v : Nat} (hv : v < 16) (x : Nat) :
    setVersionVariant v x < 2 ^ 128 := by
  apply Nat.lt_pow_two_of_testBit
  intro i hi
  rw [setVersionVariant_testBit v x hv i]
  rw [if_neg (by omega), if_neg (by omega)]
  have h128 : ¬(i < 128) := by omega
  simp [h128]

/-- Forcing the variant/version bits does not change the other 122
bits: clearing them again recovers the cleared input. -/
theorem clearVV_setVersionVariant {v : Nat} (hv : v < 16) (x : Nat) :
    clearVV (setVersionVariant v x) = clearVV x := by
  apply Nat.eq_of_testBit_eq
  intro i
  rw [clearVV_testBit, clearVV_testBit, setVersionVariant_testBit v x hv i]
  by_cases h : (62 ≤ i ∧ i ≤ 63) ∨ (76 ≤ i ∧ i ≤ 79)
  · simp [h]
  · rw [if_neg (by omega), if_neg (by omega)]
    have hd : decide ((62 ≤ i ∧ i ≤ 63) ∨ (76 ≤ i ∧ i ≤ 79)) = false := by
      simp only [decide_eq_false_iff_not]
      omega
    rw [hd]
    cases hx : x.testBit i <;> simp

/-- The output of the variant/version forcing depends only on the other
122 bits of the input. -/
theorem setVersionVariant_congr {v x y : Nat} (hv : v < 16)
    (h : clearVV x = clearVV y) :
    setVersionVariant v x = setVersionVariant v y := by
  apply Nat.eq_of_testBit_eq
  intro i
  have hb := congrArg (fun t => t.testBit i) h
  simp only [clearVV_testBit] at hb
  rw [setVersionVariant_testBit v x hv i, setVersionVariant_testBit v y hv i]
  by_cases h1 : 62 ≤ i ∧ i ≤ 63
  · rw [if_pos h1, if_pos h1]
  · by_cases h2 : 76 ≤ i ∧ i ≤ 79
    · rw [if_neg h1, if_neg h1, if_pos h2, if_pos h2]
    · rw [if_neg h1, if_neg h1, if_neg h2, if_neg h2]
      have hfalse : decide ((62 ≤ i ∧ i ≤ 63) ∨ (76 ≤ i ∧ i ≤ 79)) = false := by
        simp only [decide_eq_false_iff_not]
        omega
      rw [hfalse] at hb
      simpa using hb

theorem toHexDigits_length : ∀ (k n : Nat), (toHexDigits n k).length = k
  | 0, _ => rfl
  | k + 1, n => by simp [toHexDigits, toHexDigits_length k]

theorem hexChar_isHexDigit : ∀ m, m < 16 → isHexDigit (hexChar m) = true := by
  decide

theorem toHexDigits_mem_hex :
    ∀ (k n : Nat), ∀ c ∈ toHexDigits n k, isHexDigit c = true := by
  intro k
  induction k with
  | zero => intro n c hc; simp [toHexDigits] at hc
  | succ k ih =>
    intro n c hc
    simp only [toHexDigits, List.mem_append, List.mem_singleton] at hc
    rcases hc with hc | hc
    · exact ih (n / 16) c hc
    · subst hc
      exact hexChar_isHexDigit (n % 16) (Nat.mod_lt n (by decide))

theorem uuidToString_length (n : Nat) : (uuidToString n).length = 36 := by
  show (insertHyphens (toHexDigits n 32)).length = 36
  simp [insertHyphens, List.length_append, List.length_take,
    List.length_drop, toHexDigits_length]

theorem uuidToString_canonical (n : Nat) : CanonicalUUID (uuidToString n) := by
  refine ⟨uuidToString_length n, (toHexDigits n 32).take 8,
    ((toHexDigits n 32).drop 8).take 4, ((toHexDigits n 32).drop 12).take 4,
    ((toHexDigits n 32).drop 16).take 4, ((toHexDigits n 32).drop 20).take 12,
    rfl, ?_, ?_, ?_, ?_, ?_, ?_⟩
  · simp [List.length_take, toHexDigits_length]
  · simp [List.length_take, List.length_drop, toHexDigits_length]
  · simp [List.length_take, List.length_drop, toHexDigits_length]
  · simp [List.length_take, List.length_drop, toHexDigits_length]
  · simp [List.length_take, List.length_drop, toHexDigits_length]
  · rw [List.all_eq_true]
    intro c hc
    simp only [List.mem_append] at hc
    have hmem : c ∈ toHexDigits n 32 := by
      rcases hc with ((((h | h) | h) | h) | h)
      · exact List.take_subset _ _ h
      · exact List.drop_subset _ _ (List.take_subset _ _ h)
      · exact List.drop_subset _ _ (List.take_subset _ _ h)
      · exact List.drop_subset _ _ (List.take_subset _ _ h)
      · exact List.drop_subset _ _ (List.take_subset _ _ h)
    exact toHexDigits_mem_hex 32 n c hmem

theorem foldl_byte_bound :
    ∀ (l : List Nat) (acc : Nat), (∀ b ∈ l, b < 256) →
      List.foldl (fun acc b => acc * 256 + b) acc l <
        (acc + 1) * 256 ^ l.length := by
  intro l
  induction l with
  | nil => intro acc _; simp
  | cons b t ih =>
    intro acc h
    have hb : b < 256 := h b (List.mem_cons_self b t)
    have ht : ∀ x ∈ t, x < 256 := fun x hx => h x (List.mem_cons_of_mem b hx)
    have step := ih (acc * 256 + b) ht
    apply lt_of_lt_of_le step
    have h1 : acc * 256 + b + 1 ≤ (acc + 1) * 256 := by omega
    calc (acc * 256 + b + 1) * 256 ^ t.length
        ≤ (acc + 1) * 256 * 256 ^ t.length :=
          Nat.mul_le_mul_right _ h1
      _ = (acc + 1) * 256 ^ (b :: t).length := by
          simp [List.length_cons, Nat.pow_succ]
          ring

theorem bytesToNatBE_lt (l : List Nat) (h : ∀ b ∈ l, b < 256) :
    bytesToNatBE l < 256 ^ l.length := by
  have := foldl_byte_bound l 0 h
  simpa [bytesToNatBE] using this

theorem wordToBytes_mem_lt (w : Nat) : ∀ b ∈ wordToBytes w, b < 256 := by
  intro b hb
  simp only [wordToBytes, List.mem_cons, List.not_mem_nil, or_false] at hb
  rcases hb with h | h | h | h <;> subst h <;> exact Nat.mod_lt _ (by decide)

theorem digestOfState_mem_lt (st : Nat × Nat × Nat × Nat × Nat) :
    ∀ b ∈ digestOfState st, b < 256 := by
  intro b hb
  simp only [digestOfState, List.mem_append] at hb
  rcases hb with (((h | h) | h) | h) | h <;> exact wordToBytes_mem_lt _ b h

theorem sha1_mem_lt (msg : List Nat) : ∀ b ∈ sha1 msg, b < 256 := by
  intro b hb
  simp only [sha1] at hb
  exact digestOfState_mem_lt _ b hb

/-- The raw 128-bit integer taken from the truncated SHA-1 digest is
below `2 ^ 128` (so the 128-bit-complement modelling of the Python bit
operations is exact on it). -/
theorem uuid5_raw_lt (a b : List Nat) :
    bytesToNatBE ((sha1 (a ++ b)).take 16) < 2 ^ 128 := by
  have h1 : ∀ x ∈ (sha1 (a ++ b)).take 16, x < 256 :=
    fun x hx => sha1_mem_lt (a ++ b) x (List.take_subset _ _ hx)
  have h2 := bytesToNatBE_lt _ h1
  have h3 : ((sha1 (a ++ b)).take 16).length ≤ 16 := by
    simp [List.length_take]
  calc bytesToNatBE ((sha1 (a ++ b)).take 16)
      < 256 ^ ((sha1 (a ++ b)).take 16).length := h2
    _ ≤ 256 ^ 16 := Nat.pow_le_pow_right (by norm_num) h3
    _ = 2 ^ 128 := by norm_num

theorem uuid5_lt (a b : List Nat) : uuid5 a b < 2 ^ 128 :=
  setVersionVariant_lt (by decide) _

theorem uuid4_lt (r : Nat) : uuid4 r < 2 ^ 128 :=
  setVersionVariant_lt (by decide) _

theorem hexChar_injOn :
    ∀ a, a < 16 → ∀ b, b < 16 → hexChar a = hexChar b → a = b := by
  decide

theorem toHexDigits_injOn :
    ∀ (k x y : Nat), x < 16 ^ k → y < 16 ^ k →
      toHexDigits x k = toHexDigits y k → x = y := by
  intro k
  induction k with
  | zero =>
    intro x y hx hy _
    simp only [Nat.pow_zero, Nat.lt_one_iff] at hx hy
    omega
  | succ k ih =>
    intro x y hx hy h
    simp only [toHexDigits] at h
    have hlen : (toHexDigits (x / 16) k).length =
        (toHexDigits (y / 16) k).length := by
      simp [toHexDigits_length]
    obtain ⟨h1, h2⟩ := List.append_inj h hlen
    simp only [List.cons.injEq, and_true] at h2
    have hxd : x / 16 < 16 ^ k := by
      rw [Nat.div_lt_iff_lt_mul (by decide)]
      calc x < 16 ^ (k + 1) := hx
        _ = 16 ^ k * 16 := by rw [Nat.pow_succ]
    have hyd : y / 16 < 16 ^ k := by
      rw [Nat.div_lt_iff_lt_mul (by decide)]
      calc y < 16 ^ (k + 1) := hy
        _ = 16 ^ k * 16 := by rw [Nat.pow_succ]
    have hdiv : x / 16 = y / 16 := ih (x / 16) (y / 16) hxd hyd h1
    have hmod : x % 16 = y % 16 :=
      hexChar_injOn _ (Nat.mod_lt x (by decide)) _
        (Nat.mod_lt y (by decide)) h2
    omega

theorem hex_bne_hyphen {c : Char} (h : isHexDigit c = true) :
    (c != '-') = true := by
  rw [bne_iff_ne]
  intro he
  subst he
  exact absurd h (by decide)

theorem take_drop_reassemble (d : List Char) (hlen : d.length = 32) :
    d.take 8 ++ (d.drop 8).take 4 ++ (d.drop 12).take 4 ++
      (d.drop 16).take 4 ++ (d.drop 20).take 12 = d := by
  have k1 : (d.drop 20).take 12 = d.drop 20 :=
    List.take_of_length_le (by simp [List.length_drop, hlen])
  have k2 : d.drop 16 = (d.drop 16).take 4 ++ d.drop 20 := by
    conv_lhs => rw [← List.take_append_drop 4 (d.drop 16)]
    rw [List.drop_drop]
  have k3 : d.drop 12 = (d.drop 12).take 4 ++ d.drop 16 := by
    conv_lhs => rw [← List.take_append_drop 4 (d.drop 12)]
    rw [List.drop_drop]
  have k4 : d.drop 8 = (d.drop 8).take 4 ++ d.drop 12 := by
    conv_lhs => rw [← List.take_append_drop 4 (d.drop 8)]
    rw [List.drop_drop]
  have H : d.take 8 ++ ((d.drop 8).take 4 ++ ((d.drop 12).take 4 ++
      ((d.drop 16).take 4 ++ (d.drop 20).take 12))) = d := by
    conv_rhs => rw [← List.take_append_drop 8 d, k4, k3, k2, ← k1]
  simpa [List.append_assoc] using H

theorem filter_insertHyphens (d : List Char)
    (hd : ∀ c ∈ d, isHexDigit c = true) (hlen : d.length = 32) :
    (insertHyphens d).filter (fun c => c != '-') = d := by
  have hpiece : ∀ l : List Char, l ⊆ d →
      l.filter (fun c => c != '-') = l := by
    intro l hl
    rw [List.filter_eq_self]
    intro a ha
    exact hex_bne_hyphen (hd a (hl ha))
  unfold insertHyphens
  simp only [List.filter_append, List.filter_cons, bne_self_eq_false,
    Bool.false_eq_true, if_false]
  rw [hpiece _ (List.take_subset _ _),
    hpiece _ (List.Subset.trans (List.take_subset _ _) (List.drop_subset _ _)),
    hpiece _ (List.Subset.trans (List.take_subset _ _) (List.drop_subset _ _)),
    hpiece _ (List.Subset.trans (List.take_subset _ _) (List.drop_subset _ _)),
    hpiece _ (List.Subset.trans (List.take_subset _ _) (List.drop_subset _ _))]
  exact take_drop_reassemble d hlen

theorem uuidToString_inj {x y : Nat} (hx : x < 2 ^ 128) (hy : y < 2 ^ 128)
    (h : uuidToString x = uuidToString y) : x = y := by
  have hdata : insertHyphens (toHexDigits x 32) =
      insertHyphens (toHexDigits y 32) := congrArg String.data h
  have hfx := congrArg (List.filter (fun c => c != '-')) hdata
  rw [filter_insertHyphens _ (toHexDigits_mem_hex 32 x)
      (toHexDigits_length 32 x),
    filter_insertHyphens _ (toHexDigits_mem_hex 32 y)
      (toHexDigits_length 32 y)] at hfx
  have h16 : (16 : Nat) ^ 32 = 2 ^ 128 := by norm_num
  exact toHexDigits_injOn 32 x y (h16 ▸ hx) (h16 ▸ hy) hfx

/-! ## Claim theorems -/

/-- Claim C1: for every non-None input string `s`, the derivation
`get_thread_id` is a deterministic function of the fixed namespace
constant and `s`: two calls with the same `s` return the identical
output string, whatever randomness each call could otherwise have
consumed. -/
theorem get_thread_id_deterministic_of_some (s : String) (r1 r2 : Nat) :
    get_thread_id (some s) r1 = get_thread_id (some s) r2 := rfl

/-- Claim C4: `get_thread_id` is total over its whole input domain
(`str | None`, including the empty string and `None`): at every input it
returns a string, namely a 36-character UUID string, and as a pure
function of its inputs it has no side effects. -/
theorem get_thread_id_total (sid : Option String) (r : Nat) :
    (get_thread_id sid r).length = 36 := by
  cases sid with
  | some s => exact uuidToString_length _
  | none => exact uuidToString_length _

/-- Claim C9: for every input (present-string branch and absent branch),
the output of `get_thread_id` is in canonical UUID textual form:
36 characters, five hyphen-separated hexadecimal groups of lengths
8-4-4-4-12. -/
theorem get_thread_id_canonical_uuid (sid : Option String) (r : Nat) :
    CanonicalUUID (get_thread_id sid r) := by
  cases sid with
  | some s => exact uuidToString_canonical _
  | none => exact uuidToString_canonical _

/-- Claim C3: the `None` branch of `get_thread_id` is fresh: the output
is the formatted `uuid4` of the 16 random bytes consumed by the call,
and two calls collide exactly when their randomness agrees on all 122
bits that survive the variant/version forcing.  Under fresh uniform
randomness the right-hand side has probability `2 ^ (-122)`, so two
successive derivations differ with overwhelming probability. -/
theorem get_thread_id_none_fresh (r1 r2 : Nat) :
    get_thread_id none r1 = get_thread_id none r2 ↔
      clearVV (r1 % 2 ^ 128) = clearVV (r2 % 2 ^ 128) := by
  constructor
  · intro h
    have h4 : uuid4 r1 = uuid4 r2 :=
      uuidToString_inj (uuid4_lt r1) (uuid4_lt r2) h
    have h5 := congrArg clearVV h4
    simp only [uuid4] at h5
    rwa [clearVV_setVersionVariant (by decide),
      clearVV_setVersionVariant (by decide)] at h5
  · intro h
    show uuidToString (uuid4 r1) = uuidToString (uuid4 r2)
    unfold uuid4
    exact congrArg uuidToString (setVersionVariant_congr (by decide) h)

/-- Counterexample to claim C2: the deterministic branch of
`get_thread_id` is not injective on distinct input strings.  The output
space is the finite set of 128-bit UUID integers while the input space
is infinite, so two distinct inputs must share an output (a truncated
SHA-1 collision). -/
theorem get_thread_id_not_injective :
    ¬ ∀ (s1 s2 : String) (r : Nat), s1 ≠ s2 →
        get_thread_id (some s1) r ≠ get_thread_id (some s2) r := by
  intro hinj
  obtain ⟨x, y, hxy, hf⟩ := Finite.exists_ne_map_eq_of_infinite
    (fun s : String =>
      (⟨uuid5 namespaceBytes (utf8Encode s), uuid5_lt _ _⟩ : Fin (2 ^ 128)))
  have hval : uuid5 namespaceBytes (utf8Encode x) =
      uuid5 namespaceBytes (utf8Encode y) := congrArg Fin.val hf
  exact hinj x y 0 hxy (congrArg uuidToString hval)

/-- Claim C2 as amended: the outputs of the deterministic branch for two
inputs differ exactly when the derived 128-bit UUID integers (truncated
SHA-1 of namespace plus input, with forced variant/version bits) differ;
in particular any two inputs whose derived integers differ — the
overwhelmingly likely case for distinct inputs — get different thread
identifiers, whatever randomness the calls could otherwise consume. -/
theorem get_thread_id_injective_of_hash_ne (s1 s2 : String) (r1 r2 : Nat)
    (h : uuid5 namespaceBytes (utf8Encode s1) ≠
        uuid5 namespaceBytes (utf8Encode s2)) :
    get_thread_id (some s1) r1 ≠ get_thread_id (some s2) r2 := by
  intro he
  exact h (uuidToString_inj (uuid5_lt _ _) (uuid5_lt _ _) he)

set_option maxRecDepth 100000 in
/-- Witness for the amended claim C2 at the concrete inputs `"a"` and
`"b"`: their truncated hashes differ, hence so do their thread
identifiers. -/
theorem get_thread_id_injective_of_hash_ne_witness :
    get_thread_id (some "a") 0 ≠ get_thread_id (some "b") 0 :=
  get_thread_id_injective_of_hash_ne "a" "b" 0 0 (by decide)

/-- Claim C5: the `user_state_changed` observer emits exactly one
diagnostic line, `"User started speaking"`, on a `"speaking"` event, and
emits no diagnostic on any state outside the recognized set
`{speaking, listening, away}`. -/
theorem on_user_state_changed_spec :
    on_user_state_changed "speaking" = ["User started speaking"] ∧
    ∀ s : String, s ≠ "speaking" → s ≠ "listening" → s ≠ "away" →
      on_user_state_changed s = [] := by
  refine ⟨rfl, ?_⟩
  intro s h1 h2 h3
  simp [on_user_state_changed, h1, h2, h3]

/-- Witness for claim C5 at the concrete unrecognized state
`"typing"`. -/
theorem on_user_state_changed_spec_witness :
    on_user_state_changed "speaking" = ["User started speaking"] ∧
    on_user_state_changed "typing" = [] :=
  ⟨on_user_state_changed_spec.1,
    on_user_state_changed_spec.2 "typing" (by decide) (by decide) (by decide)⟩

/-- Claim C6: for the event sequence
`initializing, idle, listening, thinking, speaking`, the
`agent_state_changed` observer emits exactly one corresponding
diagnostic line per event, in event order, with no omissions and no
duplicates. -/
theorem on_agent_state_changed_cycle :
    (["initializing", "idle", "listening", "thinking", "speaking"].map
        on_agent_state_changed).flatten =
      ["Agent is starting up", "Agent is ready but not processing",
       "Agent is listening for user input",
       "Agent is processing user input and generating a response",
       "Agent started speaking"] ∧
    ["initializing", "idle", "listening", "thinking", "speaking"].map
        (fun s => (on_agent_state_changed s).length) = [1, 1, 1, 1, 1] :=
  ⟨rfl, rfl⟩

/-- Counterexample to claim C7: the metrics callback does mutate state
beyond emitting a diagnostic line — `usage_collector.collect` records
the metric in the usage collector.  Concretely, delivering one metric to
`on_metrics_collected` in the empty observable state changes the
collector contents. -/
theorem on_metrics_collected_mutates_collector :
    (on_metrics_collected (fun _ => "metrics line") (0 : Nat)
        { printed := [], collected := [] }).collected ≠ [] := by
  simp [on_metrics_collected]

/-- Claim C7 as amended: the user-state and agent-state observers mutate
nothing beyond appending diagnostic lines to the output; the metrics
callback appends one diagnostic line and additionally appends the
delivered metric to the usage collector, and mutates nothing else. -/
theorem observers_effects_characterization (μ : Type)
    (logMetricsLine : μ → String) (m : μ) (ev1 ev2 : String)
    (st : ObsState μ) :
    (userStateHandler ev1 st).collected = st.collected ∧
    (agentStateHandler ev2 st).collected = st.collected ∧
    (userStateHandler ev1 st).printed =
      st.printed ++ on_user_state_changed ev1 ∧
    (agentStateHandler ev2 st).printed =
      st.printed ++ on_agent_state_changed ev2 ∧
    (on_metrics_collected logMetricsLine m st).printed =
      st.printed ++ [logMetricsLine m] ∧
    (on_metrics_collected logMetricsLine m st).collected =
      st.collected ++ [m] :=
  ⟨rfl, rfl, rfl, rfl, rfl, rfl⟩

/-- Claim C8: on every run, `entrypoint` performs exactly this step
sequence — connect, block for a participant, derive the thread
identifier from the participant session id, construct the remote-graph
handle, construct the session parameterized by that graph and the
derived identifier, register the observers, and only then start the
session run loop — with each step occurring exactly once. -/
theorem entrypoint_trace_spec (roomName : String) (sid : Option String)
    (identity : String) (remoteGraphUrl : Option String) (random : Nat) :
    entrypoint roomName sid identity remoteGraphUrl random =
      [Action.logInfo ("connecting to room " ++ roomName),
       Action.connect "AUDIO_ONLY",
       Action.waitForParticipant,
       Action.deriveThreadId sid (get_thread_id sid random),
       Action.logInfo
         ("starting voice assistant for participant " ++ identity),
       Action.constructUsageCollector,
       Action.constructRemoteGraph "stepwork_assistant" remoteGraphUrl,
       Action.constructSession "stepwork_assistant"
         (get_thread_id sid random),
       Action.registerHandler "metrics_collected",
       Action.registerHandler "user_state_changed",
       Action.registerHandler "agent_state_changed",
       Action.startSession] ∧
    (entrypoint roomName sid identity remoteGraphUrl random).countP
        isConnect = 1 ∧
    (entrypoint roomName sid identity remoteGraphUrl random).countP
        isWaitForParticipant = 1 ∧
    (entrypoint roomName sid identity remoteGraphUrl random).countP
        isDeriveThreadId = 1 ∧
    (entrypoint roomName sid identity remoteGraphUrl random).countP
        isConstructRemoteGraph = 1 ∧
    (entrypoint roomName sid identity remoteGraphUrl random).countP
        isConstructSession = 1 ∧
    (entrypoint roomName sid identity remoteGraphUrl random).countP
        isRegisterHandler = 3 ∧
    (entrypoint roomName sid identity remoteGraphUrl random).countP
        isStartSession = 1 :=
  ⟨rfl, rfl, rfl, rfl, rfl, rfl, rfl, rfl⟩

/-- Claim C10: the `Assistant.on_enter` lifecycle hook issues exactly
one session command, a greeting reply generation, and that reply allows
interruptions. -/
theorem on_enter_greeting_spec :
    on_enter.length = 1 ∧
    on_enter.all allowsInterruptions = true ∧
    on_enter = [SessionCommand.generateReply
      "Hey, how can I help you today?" true] :=
  ⟨rfl, rfl, rfl⟩

end Pipeline
